import Mathlib

/-!
Shallow embedding of the `AmisEscrowManager` Solidity contract
(the escrow trade settlement engine of the amis-bot-v2 repository).

Modelling conventions:
* `uint256` values are `Nat`; Solidity 0.8 checked arithmetic reverts on
  overflow, and every subtraction in the contract is guarded (`fee <= amount`
  by construction), so the arithmetic below coincides with the contract's on
  all executions that do not revert for overflow.
* `address` is `Nat`, with `0` the zero address.
* The per-id `mapping(uint256 => Trade)` is a `List Trade` in funding order:
  trade id `i` lives at index `i - 1`; an absent key reads as the all-zero
  record, exactly like a Solidity mapping.
* Every external function becomes a pure function
  `EscrowState → ... → Except EscrowError (EscrowState × List Transfer)`.
  A `require` failure is an `Except.error`; as in the EVM, an error reverts
  the whole call, so the caller keeps the pre-call state and no transfer
  happens — rollback is by construction.
* The low-level `call{value: v}` legs are modelled by an oracle
  `ok : Address → Nat → Bool` saying whether a send of `v` wei to that
  address succeeds; the contract `require`s each leg's success.
-/

namespace AmisEscrow

abbrev Address := Nat

/-- `FEE_BPS = 250` (2.5%), charged on each side. -/
def FEE_BPS : Nat := 250

/-- `TOTAL_FEE_BPS = 500` (5% total: 2.5% buyer + 2.5% seller). -/
def TOTAL_FEE_BPS : Nat := 500

/-- `BOT_SHARE_BPS = 100` (1%): the bot's share of each fee pool. -/
def BOT_SHARE_BPS : Nat := 100

/-- `releaseTimeout = 1 days`, i.e. 86400 seconds. -/
def releaseTimeout : Nat := 86400

inductive TradeStatus where
  | Created
  | Funded
  | Delivered
  | Completed
  | Cancelled
  | Disputed
deriving DecidableEq, Repr

structure Trade where
  tradeId : Nat
  buyer : Address
  seller : Address
  amount : Nat
  status : TradeStatus
  deliveryTimestamp : Nat
  pendingBotFee : Nat
  pendingfeeReceiverFee : Nat
deriving DecidableEq, Repr

/-- The default (all-zero) record a Solidity mapping yields for an absent key. -/
def zeroTrade : Trade :=
  { tradeId := 0, buyer := 0, seller := 0, amount := 0,
    status := TradeStatus.Created, deliveryTimestamp := 0,
    pendingBotFee := 0, pendingfeeReceiverFee := 0 }

structure EscrowState where
  bot : Address
  feeReceiver : Address
  tradeCount : Nat
  trades : List Trade
deriving DecidableEq, Repr

/-- Read `trades[id]` (mapping semantics: absent keys read as `zeroTrade`). -/
def getTrade (s : EscrowState) (tradeId : Nat) : Trade :=
  s.trades.getD (tradeId - 1) zeroTrade

/-- Write `trades[id] := t` (no-op outside the populated range, which the
contract never does: every write is behind `tradeId <= tradeCount`). -/
def setTrade (s : EscrowState) (tradeId : Nat) (t : Trade) : EscrowState :=
  { s with trades := s.trades.set (tradeId - 1) t }

/-- The `require` failures of the contract, named after the spec's error
kinds.  The string messages of the source map as: 'invalid address',
'buyer cannot be seller' and 'invalid dispute raiser' → `InvalidParty`;
'amount must be greater than 0' → `InvalidAmount`; 'incorrect funding
amount' → `IncorrectFunding`; 'invalid trade id' → `NotFound`; the four
wrong-status messages → `InvalidState`; 'already completed' →
`AlreadyCompleted`; 'timeout not reached' → `TimeoutNotReached`; 'invalid
split' → `InvalidSplit`; the three/four '... transfer failed' messages →
`TransferFailed`; 'only bot can call this' → `OnlyBot`. -/
inductive EscrowError where
  | InvalidParty
  | InvalidAmount
  | IncorrectFunding
  | NotFound
  | InvalidState
  | AlreadyCompleted
  | TimeoutNotReached
  | InvalidSplit
  | TransferFailed
  | OnlyBot
deriving DecidableEq, Repr

/-- One value-bearing external call leg (`to.call{value: value}('')`). -/
structure Transfer where
  toAddr : Address
  value : Nat
deriving DecidableEq, Repr

/-- Whether a send of that many wei to that address succeeds. -/
abbrev SendOracle := Address → Nat → Bool

/-- Sum of the wei moved by a list of transfer legs. -/
def transferSum (ts : List Transfer) : Nat :=
  ts.foldr (fun t acc => t.value + acc) 0

/-- `createAndFundTrade(_seller, _tradeAmount)` with `msg.sender = sender`
and `msg.value = msgValue`.  Returns the new state and the new trade id. -/
def createAndFundTrade (s : EscrowState) (sender : Address) (msgValue : Nat)
    (seller : Address) (tradeAmount : Nat) :
    Except EscrowError (EscrowState × Nat) :=
  if seller = 0 then Except.error EscrowError.InvalidParty
  else if sender = seller then Except.error EscrowError.InvalidParty
  else if tradeAmount = 0 then Except.error EscrowError.InvalidAmount
  else
    let buyerFee := tradeAmount * FEE_BPS / 10000
    let requiredTotal := tradeAmount + buyerFee
    if msgValue ≠ requiredTotal then Except.error EscrowError.IncorrectFunding
    else
      let id := s.tradeCount + 1
      let botFee := buyerFee * BOT_SHARE_BPS / TOTAL_FEE_BPS
      let feeReceiverFee := buyerFee - botFee
      let t : Trade :=
        { tradeId := id, buyer := sender, seller := seller,
          amount := tradeAmount, status := TradeStatus.Funded,
          deliveryTimestamp := 0, pendingBotFee := botFee,
          pendingfeeReceiverFee := feeReceiverFee }
      Except.ok ({ s with tradeCount := id, trades := s.trades ++ [t] }, id)

/-- `markDelivered(tradeId)` with `msg.sender = sender` and
`block.timestamp = timestamp`. -/
def markDelivered (s : EscrowState) (sender : Address) (timestamp : Nat)
    (tradeId : Nat) : Except EscrowError EscrowState :=
  if sender ≠ s.bot then Except.error EscrowError.OnlyBot
  else if ¬ (0 < tradeId ∧ tradeId ≤ s.tradeCount) then
    Except.error EscrowError.NotFound
  else
    let t := getTrade s tradeId
    if t.status ≠ TradeStatus.Funded then Except.error EscrowError.InvalidState
    else
      Except.ok (setTrade s tradeId
        { t with status := TradeStatus.Delivered,
                 deliveryTimestamp := timestamp })

/-- Internal `_release(tradeId)`: mark `Completed`, accrue the seller-side
fee split onto the pending balances, snapshot and zero both balances, then
transfer seller payout, bot fee and feeReceiver fee (each leg `require`d). -/
def release (s : EscrowState) (ok : SendOracle) (tradeId : Nat) :
    Except EscrowError (EscrowState × List Transfer) :=
  if ¬ (0 < tradeId ∧ tradeId ≤ s.tradeCount) then
    Except.error EscrowError.NotFound
  else
    let t := getTrade s tradeId
    if t.status = TradeStatus.Completed then
      Except.error EscrowError.AlreadyCompleted
    else
      let sellerFee := t.amount * FEE_BPS / 10000
      let payout := t.amount - sellerFee
      let botFee := sellerFee * BOT_SHARE_BPS / TOTAL_FEE_BPS
      let feeReceiverFee := sellerFee - botFee
      let botAmount := t.pendingBotFee + botFee
      let receiverAmount := t.pendingfeeReceiverFee + feeReceiverFee
      let t' := { t with status := TradeStatus.Completed,
                         pendingBotFee := 0, pendingfeeReceiverFee := 0 }
      if ¬ ok t.seller payout then Except.error EscrowError.TransferFailed
      else if ¬ ok s.bot botAmount then Except.error EscrowError.TransferFailed
      else if ¬ ok s.feeReceiver receiverAmount then
        Except.error EscrowError.TransferFailed
      else
        Except.ok (setTrade s tradeId t',
          [{ toAddr := t.seller, value := payout },
           { toAddr := s.bot, value := botAmount },
           { toAddr := s.feeReceiver, value := receiverAmount }])

/-- `approveDelivery(tradeId)` with `msg.sender = sender`. -/
def approveDelivery (s : EscrowState) (ok : SendOracle) (sender : Address)
    (tradeId : Nat) : Except EscrowError (EscrowState × List Transfer) :=
  if sender ≠ s.bot then Except.error EscrowError.OnlyBot
  else if ¬ (0 < tradeId ∧ tradeId ≤ s.tradeCount) then
    Except.error EscrowError.NotFound
  else
    let t := getTrade s tradeId
    if t.status ≠ TradeStatus.Delivered then
      Except.error EscrowError.InvalidState
    else release s ok tradeId

/-- `releaseAfterTimeout(tradeId)` with `msg.sender = sender` and
`block.timestamp = timestamp`. -/
def releaseAfterTimeout (s : EscrowState) (ok : SendOracle) (sender : Address)
    (timestamp : Nat) (tradeId : Nat) :
    Except EscrowError (EscrowState × List Transfer) :=
  if sender ≠ s.bot then Except.error EscrowError.OnlyBot
  else if ¬ (0 < tradeId ∧ tradeId ≤ s.tradeCount) then
    Except.error EscrowError.NotFound
  else
    let t := getTrade s tradeId
    if t.status ≠ TradeStatus.Delivered then
      Except.error EscrowError.InvalidState
    else if timestamp < t.deliveryTimestamp + releaseTimeout then
      Except.error EscrowError.TimeoutNotReached
    else release s ok tradeId

/-- `openDispute(tradeId, raisedBy)` with `msg.sender = sender`. -/
def openDispute (s : EscrowState) (sender : Address) (tradeId : Nat)
    (raisedBy : Address) : Except EscrowError EscrowState :=
  if sender ≠ s.bot then Except.error EscrowError.OnlyBot
  else if ¬ (0 < tradeId ∧ tradeId ≤ s.tradeCount) then
    Except.error EscrowError.NotFound
  else
    let t := getTrade s tradeId
    if t.status ≠ TradeStatus.Delivered then
      Except.error EscrowError.InvalidState
    else if ¬ (raisedBy = t.buyer ∨ raisedBy = t.seller) then
      Except.error EscrowError.InvalidParty
    else
      Except.ok (setTrade s tradeId { t with status := TradeStatus.Disputed })

/-- `resolveDispute(tradeId, buyerShareBps, sellerShareBps)` with
`msg.sender = sender`.  Zero-value buyer/seller legs are skipped (the
source guards them with `if (payout > 0)`); the two fee legs always run. -/
def resolveDispute (s : EscrowState) (ok : SendOracle) (sender : Address)
    (tradeId : Nat) (buyerShareBps sellerShareBps : Nat) :
    Except EscrowError (EscrowState × List Transfer) :=
  if sender ≠ s.bot then Except.error EscrowError.OnlyBot
  else if ¬ (0 < tradeId ∧ tradeId ≤ s.tradeCount) then
    Except.error EscrowError.NotFound
  else
    let t := getTrade s tradeId
    if t.status ≠ TradeStatus.Disputed then
      Except.error EscrowError.InvalidState
    else if buyerShareBps + sellerShareBps ≠ 10000 then
      Except.error EscrowError.InvalidSplit
    else
      let totalFee := t.amount * FEE_BPS / 10000
      let distributable := t.amount - totalFee
      let buyerPayout := distributable * buyerShareBps / 10000
      let sellerPayout := distributable * sellerShareBps / 10000
      let botFee := totalFee * BOT_SHARE_BPS / TOTAL_FEE_BPS
      let feeReceiverFee := totalFee - botFee
      let botAmount := t.pendingBotFee + botFee
      let receiverAmount := t.pendingfeeReceiverFee + feeReceiverFee
      let t' := { t with status := TradeStatus.Completed,
                         pendingBotFee := 0, pendingfeeReceiverFee := 0 }
      if 0 < buyerPayout ∧ ¬ ok t.buyer buyerPayout then
        Except.error EscrowError.TransferFailed
      else if 0 < sellerPayout ∧ ¬ ok t.seller sellerPayout then
        Except.error EscrowError.TransferFailed
      else if ¬ ok s.bot botAmount then Except.error EscrowError.TransferFailed
      else if ¬ ok s.feeReceiver receiverAmount then
        Except.error EscrowError.TransferFailed
      else
        Except.ok (setTrade s tradeId t',
          (if 0 < buyerPayout then [{ toAddr := t.buyer, value := buyerPayout }]
           else []) ++
          (if 0 < sellerPayout then [{ toAddr := t.seller, value := sellerPayout }]
           else []) ++
          [{ toAddr := s.bot, value := botAmount },
           { toAddr := s.feeReceiver, value := receiverAmount }])

/-- One external call to the contract, with its caller-side parameters. -/
inductive Action where
  | fund (sender : Address) (msgValue : Nat) (seller : Address) (amount : Nat)
  | deliver (sender : Address) (timestamp : Nat) (tradeId : Nat)
  | approve (sender : Address) (tradeId : Nat)
  | timeoutRelease (sender : Address) (timestamp : Nat) (tradeId : Nat)
  | dispute (sender : Address) (tradeId : Nat) (raisedBy : Address)
  | resolve (sender : Address) (tradeId : Nat) (buyerShareBps sellerShareBps : Nat)
deriving DecidableEq, Repr

/-- Execute one external call, returning the new state and the outgoing
transfer legs. -/
def step (s : EscrowState) (ok : SendOracle) :
    Action → Except EscrowError (EscrowState × List Transfer)
  | Action.fund sender msgValue seller amount =>
      (createAndFundTrade s sender msgValue seller amount).map
        (fun p => (p.1, []))
  | Action.deliver sender timestamp tradeId =>
      (markDelivered s sender timestamp tradeId).map (fun s' => (s', []))
  | Action.approve sender tradeId => approveDelivery s ok sender tradeId
  | Action.timeoutRelease sender timestamp tradeId =>
      releaseAfterTimeout s ok sender timestamp tradeId
  | Action.dispute sender tradeId raisedBy =>
      (openDispute s sender tradeId raisedBy).map (fun s' => (s', []))
  | Action.resolve sender tradeId b c => resolveDispute s ok sender tradeId b c

/-- The states the deployed contract can be in: the constructor (which
requires a nonzero bot and feeReceiver) followed by any sequence of
successful external calls. -/
inductive Reachable : EscrowState → Prop where
  | init (bot feeReceiver : Address) (hb : bot ≠ 0) (hf : feeReceiver ≠ 0) :
      Reachable { bot := bot, feeReceiver := feeReceiver,
                  tradeCount := 0, trades := [] }
  | step (s : EscrowState) (ok : SendOracle) (a : Action)
      (s' : EscrowState) (tr : List Transfer) (hs : Reachable s)
      (h : step s ok a = Except.ok (s', tr)) : Reachable s'

/-- The recurring basis-point fee expression of the source:
`amount * FEE_BPS / 10000` (floor division). -/
def feeOn (amount : Nat) : Nat := amount * FEE_BPS / 10000

/-- The `Trade` record stored by a successful `createAndFundTrade`. -/
def newTrade (s : EscrowState) (sender seller : Address) (amt : Nat) : Trade :=
  { tradeId := s.tradeCount + 1, buyer := sender, seller := seller,
    amount := amt, status := TradeStatus.Funded, deliveryTimestamp := 0,
    pendingBotFee := amt * FEE_BPS / 10000 * BOT_SHARE_BPS / TOTAL_FEE_BPS,
    pendingfeeReceiverFee :=
      amt * FEE_BPS / 10000 - amt * FEE_BPS / 10000 * BOT_SHARE_BPS / TOTAL_FEE_BPS }

/-- Seller payout of `_release`: `t.amount - sellerFee`. -/
def sellerPayoutOf (t : Trade) : Nat :=
  t.amount - t.amount * FEE_BPS / 10000

/-- The bot-leg amount of a settlement: the pending bot fee plus the
settlement-time bot share. -/
def relBotAmount (t : Trade) : Nat :=
  t.pendingBotFee + t.amount * FEE_BPS / 10000 * BOT_SHARE_BPS / TOTAL_FEE_BPS

/-- The feeReceiver-leg amount of a settlement: the pending feeReceiver fee
plus the settlement-time feeReceiver share. -/
def relReceiverAmount (t : Trade) : Nat :=
  t.pendingfeeReceiverFee +
    (t.amount * FEE_BPS / 10000 -
      t.amount * FEE_BPS / 10000 * BOT_SHARE_BPS / TOTAL_FEE_BPS)

/-- The record a settlement writes back: `Completed`, both pending fee
balances zeroed, all other fields untouched. -/
def completedOf (t : Trade) : Trade :=
  { t with status := TradeStatus.Completed,
           pendingBotFee := 0, pendingfeeReceiverFee := 0 }

/-- `distributable` of `resolveDispute`: `t.amount - totalFee`. -/
def distributableOf (t : Trade) : Nat :=
  t.amount - t.amount * FEE_BPS / 10000

/-- A dispute-side payout: `distributable * bps / 10000`. -/
def shareOf (t : Trade) (bps : Nat) : Nat :=
  distributableOf t * bps / 10000

/-- EVM call semantics for one external call: a revert (`Except.error`)
leaves the state unchanged and moves no funds. -/
def run (s : EscrowState) (ok : SendOracle) (a : Action) :
    EscrowState × List Transfer :=
  match step s ok a with
  | Except.ok r => r
  | Except.error _ => (s, [])

/-- The forward edges of the status diagram:
`Funded → Delivered → (Completed | Disputed → Completed)`. -/
def ForwardEdge : TradeStatus → TradeStatus → Prop
  | TradeStatus.Funded, TradeStatus.Delivered => True
  | TradeStatus.Delivered, TradeStatus.Completed => True
  | TradeStatus.Delivered, TradeStatus.Disputed => True
  | TradeStatus.Disputed, TradeStatus.Completed => True
  | _, _ => False

/-- The predecessor status each lifecycle call requires of its trade. -/
def statusPrereq : Action → Option TradeStatus
  | Action.fund _ _ _ _ => none
  | Action.deliver _ _ _ => some TradeStatus.Funded
  | Action.approve _ _ => some TradeStatus.Delivered
  | Action.timeoutRelease _ _ _ => some TradeStatus.Delivered
  | Action.dispute _ _ _ => some TradeStatus.Delivered
  | Action.resolve _ _ _ _ => some TradeStatus.Disputed

/-- The `msg.sender` of a call. -/
def actionSender : Action → Address
  | Action.fund sender _ _ _ => sender
  | Action.deliver sender _ _ => sender
  | Action.approve sender _ => sender
  | Action.timeoutRelease sender _ _ => sender
  | Action.dispute sender _ _ => sender
  | Action.resolve sender _ _ _ => sender

/-- The trade id a lifecycle call addresses (`none` for funding). -/
def actionTradeId : Action → Option Nat
  | Action.fund _ _ _ _ => none
  | Action.deliver _ _ tradeId => some tradeId
  | Action.approve _ tradeId => some tradeId
  | Action.timeoutRelease _ _ tradeId => some tradeId
  | Action.dispute _ tradeId _ => some tradeId
  | Action.resolve _ tradeId _ _ => some tradeId

/-- The settlement calls (the three paths that pay out and complete a
trade), with the trade id they address. -/
def isSettlement : Action → Option Nat
  | Action.approve _ tradeId => some tradeId
  | Action.timeoutRelease _ _ tradeId => some tradeId
  | Action.resolve _ tradeId _ _ => some tradeId
  | _ => none

/-- Per-trade invariant of every stored trade: the status is one of the
four reachable ones; a completed trade holds no pending fees; a live trade
holds exactly the buyer-side funding fee as pending fees. -/
def TradeOK (t : Trade) : Prop :=
  (t.status = TradeStatus.Funded ∨ t.status = TradeStatus.Delivered ∨
    t.status = TradeStatus.Disputed ∨ t.status = TradeStatus.Completed) ∧
  (t.status = TradeStatus.Completed →
    t.pendingBotFee = 0 ∧ t.pendingfeeReceiverFee = 0) ∧
  (t.status ≠ TradeStatus.Completed →
    t.pendingBotFee + t.pendingfeeReceiverFee = feeOn t.amount)

/-- Ledger invariant: the trade list is exactly `tradeCount` long and every
stored trade satisfies `TradeOK`. -/
def StateOK (s : EscrowState) : Prop :=
  s.trades.length = s.tradeCount ∧
  ∀ tradeId, 1 ≤ tradeId → tradeId ≤ s.tradeCount → TradeOK (getTrade s tradeId)

/-- Run a sequence of external calls, concatenating all transfer legs
(reverted calls contribute nothing). -/
def runTrace (s : EscrowState) (ok : SendOracle) :
    List Action → EscrowState × List Transfer
  | [] => (s, [])
  | a :: rest =>
    let p := run s ok a
    let q := runTrace p.1 ok rest
    (q.1, p.2 ++ q.2)

/-- An oracle under which every transfer leg succeeds. -/
def allOk : SendOracle := fun _ _ => true

/-- An oracle under which any send to address 1 fails. -/
def failTo1 : SendOracle := fun a _ => decide (a ≠ 1)

/-- An oracle under which any send to address 2 fails. -/
def failTo2 : SendOracle := fun a _ => decide (a ≠ 2)

/-- A freshly constructed contract: bot = 9, feeReceiver = 8, no trades. -/
def escrowInit : EscrowState :=
  { bot := 9, feeReceiver := 8, tradeCount := 0, trades := [] }

/-- The state after `createAndFundTrade(seller = 2, amount = 1000)` from
buyer 1 with 1025 wei attached. -/
def fundedSample : EscrowState :=
  { bot := 9, feeReceiver := 8, tradeCount := 1,
    trades := [{ tradeId := 1, buyer := 1, seller := 2, amount := 1000,
                 status := TradeStatus.Funded, deliveryTimestamp := 0,
                 pendingBotFee := 5, pendingfeeReceiverFee := 20 }] }

/-- `fundedSample` after `markDelivered(1)` at time 100. -/
def deliveredSample : EscrowState :=
  { bot := 9, feeReceiver := 8, tradeCount := 1,
    trades := [{ tradeId := 1, buyer := 1, seller := 2, amount := 1000,
                 status := TradeStatus.Delivered, deliveryTimestamp := 100,
                 pendingBotFee := 5, pendingfeeReceiverFee := 20 }] }

/-- `deliveredSample` after `openDispute(1, raisedBy = buyer)`. -/
def disputedSample : EscrowState :=
  { bot := 9, feeReceiver := 8, tradeCount := 1,
    trades := [{ tradeId := 1, buyer := 1, seller := 2, amount := 1000,
                 status := TradeStatus.Disputed, deliveryTimestamp := 100,
                 pendingBotFee := 5, pendingfeeReceiverFee := 20 }] }

/-- The state either settlement path leaves trade 1 of the samples in. -/
def settledSample : EscrowState :=
  { bot := 9, feeReceiver := 8, tradeCount := 1,
    trades := [{ tradeId := 1, buyer := 1, seller := 2, amount := 1000,
                 status := TradeStatus.Completed, deliveryTimestamp := 100,
                 pendingBotFee := 0, pendingfeeReceiverFee := 0 }] }

section ListHelpers

variable {α : Type}

lemma getD_set_self (l : List α) (i : Nat) (a d : α) (h : i < l.length) :
    (l.set i a).getD i d = a := by
  induction l generalizing i with
  | nil => simp at h
  | cons x xs ih =>
    cases i with
    | zero => simp [List.set, List.getD]
    | succ n =>
      simp only [List.set, List.getD_cons_succ]
      exact ih n (by simpa using h)

lemma getD_set_ne (l : List α) (i j : Nat) (a d : α) (h : i ≠ j) :
    (l.set i a).getD j d = l.getD j d := by
  induction l generalizing i j with
  | nil => simp [List.set]
  | cons x xs ih =>
    cases i with
    | zero =>
      cases j with
      | zero => exact absurd rfl h
      | succ m => simp [List.set, List.getD]
    | succ n =>
      cases j with
      | zero => simp [List.set, List.getD]
      | succ m =>
        simp only [List.set, List.getD_cons_succ]
        exact ih n m (by omega)

lemma getD_append_lt (l m : List α) (i : Nat) (d : α) (h : i < l.length) :
    (l ++ m).getD i d = l.getD i d := by
  induction l generalizing i with
  | nil => simp at h
  | cons x xs ih =>
    cases i with
    | zero => simp [List.getD]
    | succ n =>
      simp only [List.cons_append, List.getD_cons_succ]
      exact ih n (by simpa using h)

lemma getD_append_len (l : List α) (a d : α) :
    (l ++ [a]).getD l.length d = a := by
  induction l with
  | nil => simp [List.getD]
  | cons x xs ih => simp [List.getD, ih]

lemma getD_len_le (l : List α) (i : Nat) (d : α) (h : l.length ≤ i) :
    l.getD i d = d := by
  induction l generalizing i with
  | nil => simp [List.getD]
  | cons x xs ih =>
    cases i with
    | zero => simp at h
    | succ n =>
      simp only [List.getD_cons_succ]
      exact ih n (by simpa using h)

end ListHelpers

lemma feeOn_le (a : Nat) : feeOn a ≤ a := by
  have h1 : a * FEE_BPS ≤ a * 10000 := by
    unfold FEE_BPS; exact Nat.mul_le_mul_left a (by norm_num)
  calc feeOn a = a * FEE_BPS / 10000 := rfl
    _ ≤ a * 10000 / 10000 := Nat.div_le_div_right h1
    _ = a := Nat.mul_div_cancel a (by norm_num)

lemma botShare_le (f : Nat) : f * BOT_SHARE_BPS / TOTAL_FEE_BPS ≤ f := by
  have h1 : f * BOT_SHARE_BPS ≤ f * TOTAL_FEE_BPS := by
    unfold BOT_SHARE_BPS TOTAL_FEE_BPS
    exact Nat.mul_le_mul_left f (by norm_num)
  calc f * BOT_SHARE_BPS / TOTAL_FEE_BPS
      ≤ f * TOTAL_FEE_BPS / TOTAL_FEE_BPS := Nat.div_le_div_right h1
    _ = f := Nat.mul_div_cancel f (by unfold TOTAL_FEE_BPS; norm_num)

lemma createAndFundTrade_ok_iff {s : EscrowState} {sender seller : Address}
    {v amt : Nat} {r : EscrowState × Nat} :
    createAndFundTrade s sender v seller amt = Except.ok r ↔
      seller ≠ 0 ∧ sender ≠ seller ∧ amt ≠ 0 ∧
        v = amt + amt * FEE_BPS / 10000 ∧
        r = ({ s with tradeCount := s.tradeCount + 1,
                      trades := s.trades ++ [newTrade s sender seller amt] },
             s.tradeCount + 1) := by
  simp only [createAndFundTrade, newTrade]
  split_ifs with h1 h2 h3 h4 <;> simp_all <;> first
  | exact eq_comm
  | tauto

lemma markDelivered_ok_iff {s : EscrowState} {sender : Address}
    {ts tradeId : Nat} {s' : EscrowState} :
    markDelivered s sender ts tradeId = Except.ok s' ↔
      sender = s.bot ∧ 0 < tradeId ∧ tradeId ≤ s.tradeCount ∧
      (getTrade s tradeId).status = TradeStatus.Funded ∧
      s' = setTrade s tradeId
        { (getTrade s tradeId) with status := TradeStatus.Delivered,
                                    deliveryTimestamp := ts } := by
  simp only [markDelivered]
  split_ifs with h1 h2 h3 <;> simp_all <;> first
  | exact eq_comm
  | tauto

lemma release_ok_iff {s : EscrowState} {ok : SendOracle} {tradeId : Nat}
    {r : EscrowState × List Transfer} :
    release s ok tradeId = Except.ok r ↔
      0 < tradeId ∧ tradeId ≤ s.tradeCount ∧
      (getTrade s tradeId).status ≠ TradeStatus.Completed ∧
      ok (getTrade s tradeId).seller (sellerPayoutOf (getTrade s tradeId)) = true ∧
      ok s.bot (relBotAmount (getTrade s tradeId)) = true ∧
      ok s.feeReceiver (relReceiverAmount (getTrade s tradeId)) = true ∧
      r = (setTrade s tradeId (completedOf (getTrade s tradeId)),
        [{ toAddr := (getTrade s tradeId).seller,
           value := sellerPayoutOf (getTrade s tradeId) },
         { toAddr := s.bot, value := relBotAmount (getTrade s tradeId) },
         { toAddr := s.feeReceiver,
           value := relReceiverAmount (getTrade s tradeId) }]) := by
  simp only [release, sellerPayoutOf, relBotAmount, relReceiverAmount, completedOf]
  split_ifs with h1 h2 h3 h4 h5 <;> simp_all <;> first
  | exact eq_comm
  | tauto

lemma approveDelivery_ok_iff {s : EscrowState} {ok : SendOracle}
    {sender : Address} {tradeId : Nat} {r : EscrowState × List Transfer} :
    approveDelivery s ok sender tradeId = Except.ok r ↔
      sender = s.bot ∧ 0 < tradeId ∧ tradeId ≤ s.tradeCount ∧
      (getTrade s tradeId).status = TradeStatus.Delivered ∧
      release s ok tradeId = Except.ok r := by
  simp only [approveDelivery]
  split_ifs with h1 h2 h3 <;> simp_all <;> tauto

lemma releaseAfterTimeout_ok_iff {s : EscrowState} {ok : SendOracle}
    {sender : Address} {ts tradeId : Nat} {r : EscrowState × List Transfer} :
    releaseAfterTimeout s ok sender ts tradeId = Except.ok r ↔
      sender = s.bot ∧ 0 < tradeId ∧ tradeId ≤ s.tradeCount ∧
      (getTrade s tradeId).status = TradeStatus.Delivered ∧
      (getTrade s tradeId).deliveryTimestamp + releaseTimeout ≤ ts ∧
      release s ok tradeId = Except.ok r := by
  simp only [releaseAfterTimeout]
  split_ifs with h1 h2 h3 h4 <;> simp_all <;> omega

lemma openDispute_ok_iff {s : EscrowState} {sender : Address} {tradeId : Nat}
    {raisedBy : Address} {s' : EscrowState} :
    openDispute s sender tradeId raisedBy = Except.ok s' ↔
      sender = s.bot ∧ 0 < tradeId ∧ tradeId ≤ s.tradeCount ∧
      (getTrade s tradeId).status = TradeStatus.Delivered ∧
      (raisedBy = (getTrade s tradeId).buyer ∨
        raisedBy = (getTrade s tradeId).seller) ∧
      s' = setTrade s tradeId
        { (getTrade s tradeId) with status := TradeStatus.Disputed } := by
  simp only [openDispute]
  split_ifs with h1 h2 h3 h4 <;> simp_all <;> first
  | exact eq_comm
  | tauto

set_option maxHeartbeats 2000000 in
lemma resolveDispute_ok_iff {s : EscrowState} {ok : SendOracle}
    {sender : Address} {tradeId b c : Nat} {r : EscrowState × List Transfer} :
    resolveDispute s ok sender tradeId b c = Except.ok r ↔
      sender = s.bot ∧ 0 < tradeId ∧ tradeId ≤ s.tradeCount ∧
      (getTrade s tradeId).status = TradeStatus.Disputed ∧
      b + c = 10000 ∧
      (0 < shareOf (getTrade s tradeId) b →
        ok (getTrade s tradeId).buyer (shareOf (getTrade s tradeId) b) = true) ∧
      (0 < shareOf (getTrade s tradeId) c →
        ok (getTrade s tradeId).seller (shareOf (getTrade s tradeId) c) = true) ∧
      ok s.bot (relBotAmount (getTrade s tradeId)) = true ∧
      ok s.feeReceiver (relReceiverAmount (getTrade s tradeId)) = true ∧
      r = (setTrade s tradeId (completedOf (getTrade s tradeId)),
        (if 0 < shareOf (getTrade s tradeId) b then
          [{ toAddr := (getTrade s tradeId).buyer,
             value := shareOf (getTrade s tradeId) b }] else []) ++
        (if 0 < shareOf (getTrade s tradeId) c then
          [{ toAddr := (getTrade s tradeId).seller,
             value := shareOf (getTrade s tradeId) c }] else []) ++
        [{ toAddr := s.bot, value := relBotAmount (getTrade s tradeId) },
         { toAddr := s.feeReceiver,
           value := relReceiverAmount (getTrade s tradeId) }]) := by
  simp only [resolveDispute, shareOf, distributableOf, relBotAmount,
    relReceiverAmount, completedOf]
  split_ifs with h1 h2 h3 h4 h5 h6 h7 h8 <;> simp_all <;> first
  | exact eq_comm
  | tauto

lemma map_eq_ok {α β ε : Type} {f : α → β} {x : Except ε α} {b : β}
    (h : x.map f = Except.ok b) : ∃ a, x = Except.ok a ∧ f a = b := by
  cases x <;> simp_all [Except.map]

lemma setTrade_bot (s : EscrowState) (i : Nat) (t : Trade) :
    (setTrade s i t).bot = s.bot := rfl

lemma setTrade_tradeCount (s : EscrowState) (i : Nat) (t : Trade) :
    (setTrade s i t).tradeCount = s.tradeCount := rfl

lemma setTrade_length (s : EscrowState) (i : Nat) (t : Trade) :
    (setTrade s i t).trades.length = s.trades.length := by
  simp [setTrade]

lemma getTrade_setTrade_self (s : EscrowState) (i : Nat) (t : Trade)
    (h1 : 1 ≤ i) (h2 : i ≤ s.trades.length) :
    getTrade (setTrade s i t) i = t := by
  unfold getTrade setTrade
  exact getD_set_self _ _ _ _ (by omega)

lemma getTrade_setTrade_of_ne (s : EscrowState) (i j : Nat) (t : Trade)
    (h1 : 1 ≤ i) (h2 : 1 ≤ j) (h : i ≠ j) :
    getTrade (setTrade s i t) j = getTrade s j := by
  unfold getTrade setTrade
  exact getD_set_ne _ _ _ _ _ (by omega)

lemma TradeOK_newTrade (s : EscrowState) (sender seller : Address) (amt : Nat) :
    TradeOK (newTrade s sender seller amt) := by
  refine ⟨Or.inl rfl, by simp [newTrade], ?_⟩
  intro _
  have hle := botShare_le (amt * FEE_BPS / 10000)
  simp only [newTrade, feeOn]
  omega

lemma TradeOK_completedOf (t : Trade) : TradeOK (completedOf t) := by
  refine ⟨Or.inr (Or.inr (Or.inr rfl)), by simp [completedOf], ?_⟩
  intro h
  exact absurd rfl h

lemma stateOK_createAndFundTrade {s : EscrowState} {sender seller : Address}
    {v amt : Nat} {s' : EscrowState} {id : Nat} (h : StateOK s)
    (hok : createAndFundTrade s sender v seller amt = Except.ok (s', id)) :
    StateOK s' := by
  obtain ⟨_, _, _, _, hr⟩ := createAndFundTrade_ok_iff.mp hok
  obtain ⟨hs', _⟩ := Prod.mk.injEq .. ▸ hr
  obtain ⟨hlen, hall⟩ := h
  subst hs'
  constructor
  · simp [hlen]
  · intro tid h1 h2
    simp only at h2
    by_cases hcase : tid ≤ s.tradeCount
    · have : getTrade { s with tradeCount := s.tradeCount + 1,
                               trades := s.trades ++ [newTrade s sender seller amt] } tid
          = getTrade s tid := by
        unfold getTrade
        exact getD_append_lt _ _ _ _ (by omega)
      rw [this]
      exact hall tid h1 hcase
    · have htid : tid = s.tradeCount + 1 := by omega
      subst htid
      have : getTrade { s with tradeCount := s.tradeCount + 1,
                               trades := s.trades ++ [newTrade s sender seller amt] }
            (s.tradeCount + 1) = newTrade s sender seller amt := by
        unfold getTrade
        simp only [Nat.add_sub_cancel, ← hlen]
        exact getD_append_len _ _ _
      rw [this]
      exact TradeOK_newTrade s sender seller amt

lemma stateOK_markDelivered {s : EscrowState} {sender : Address}
    {ts tradeId : Nat} {s' : EscrowState} (h : StateOK s)
    (hok : markDelivered s sender ts tradeId = Except.ok s') : StateOK s' := by
  obtain ⟨_, h1, h2, hst, hs'⟩ := markDelivered_ok_iff.mp hok
  obtain ⟨hlen, hall⟩ := h
  subst hs'
  refine ⟨by rw [setTrade_length, setTrade_tradeCount]; exact hlen, ?_⟩
  intro tid ht1 ht2
  rw [setTrade_tradeCount] at ht2
  by_cases hcase : tid = tradeId
  · subst hcase
    rw [getTrade_setTrade_self s tid _ ht1 (by omega)]
    obtain ⟨_, _, hpend⟩ := hall tid ht1 ht2
    refine ⟨Or.inr (Or.inl rfl), by simp, ?_⟩
    intro _
    simpa using hpend (by simp [hst])
  · rw [getTrade_setTrade_of_ne s tradeId tid _ (by omega) ht1 (by omega)]
    exact hall tid ht1 ht2

lemma stateOK_openDispute {s : EscrowState} {sender raisedBy : Address}
    {tradeId : Nat} {s' : EscrowState} (h : StateOK s)
    (hok : openDispute s sender tradeId raisedBy = Except.ok s') : StateOK s' := by
  obtain ⟨_, h1, h2, hst, _, hs'⟩ := openDispute_ok_iff.mp hok
  obtain ⟨hlen, hall⟩ := h
  subst hs'
  refine ⟨by rw [setTrade_length, setTrade_tradeCount]; exact hlen, ?_⟩
  intro tid ht1 ht2
  rw [setTrade_tradeCount] at ht2
  by_cases hcase : tid = tradeId
  · subst hcase
    rw [getTrade_setTrade_self s tid _ ht1 (by omega)]
    obtain ⟨_, _, hpend⟩ := hall tid ht1 ht2
    refine ⟨Or.inr (Or.inr (Or.inl rfl)), by simp, ?_⟩
    intro _
    simpa using hpend (by simp [hst])
  · rw [getTrade_setTrade_of_ne s tradeId tid _ (by omega) ht1 (by omega)]
    exact hall tid ht1 ht2

lemma stateOK_release {s : EscrowState} {ok : SendOracle} {tradeId : Nat}
    {s' : EscrowState} {tr : List Transfer} (h : StateOK s)
    (hok : release s ok tradeId = Except.ok (s', tr)) : StateOK s' := by
  obtain ⟨h1, h2, _, _, _, _, hr⟩ := release_ok_iff.mp hok
  obtain ⟨hs', _⟩ := Prod.mk.injEq .. ▸ hr
  obtain ⟨hlen, hall⟩ := h
  subst hs'
  refine ⟨by rw [setTrade_length, setTrade_tradeCount]; exact hlen, ?_⟩
  intro tid ht1 ht2
  rw [setTrade_tradeCount] at ht2
  by_cases hcase : tid = tradeId
  · subst hcase
    rw [getTrade_setTrade_self s tid _ ht1 (by omega)]
    exact TradeOK_completedOf _
  · rw [getTrade_setTrade_of_ne s tradeId tid _ (by omega) ht1 (by omega)]
    exact hall tid ht1 ht2

lemma stateOK_resolveDispute {s : EscrowState} {ok : SendOracle}
    {sender : Address} {tradeId b c : Nat} {s' : EscrowState}
    {tr : List Transfer} (h : StateOK s)
    (hok : resolveDispute s ok sender tradeId b c = Except.ok (s', tr)) :
    StateOK s' := by
  obtain ⟨_, h1, h2, _, _, _, _, _, _, hr⟩ := resolveDispute_ok_iff.mp hok
  obtain ⟨hs', _⟩ := Prod.mk.injEq .. ▸ hr
  obtain ⟨hlen, hall⟩ := h
  subst hs'
  refine ⟨by rw [setTrade_length, setTrade_tradeCount]; exact hlen, ?_⟩
  intro tid ht1 ht2
  rw [setTrade_tradeCount] at ht2
  by_cases hcase : tid = tradeId
  · subst hcase
    rw [getTrade_setTrade_self s tid _ ht1 (by omega)]
    exact TradeOK_completedOf _
  · rw [getTrade_setTrade_of_ne s tradeId tid _ (by omega) ht1 (by omega)]
    exact hall tid ht1 ht2

/-- The master ledger invariant: every reachable contract state satisfies
`StateOK`. -/
lemma reachable_StateOK {s : EscrowState} (h : Reachable s) : StateOK s := by
  induction h with
  | init bot feeReceiver hb hf =>
    exact ⟨rfl, by intro tid h1 h2; simp only at h2; omega⟩
  | step s ok a s' tr hs hstep ih =>
    cases a with
    | fund sender v seller amt =>
      obtain ⟨⟨s'', id⟩, hcall, hmap⟩ := map_eq_ok hstep
      obtain ⟨rfl, _⟩ := Prod.mk.injEq .. ▸ hmap
      exact stateOK_createAndFundTrade ih hcall
    | deliver sender ts tradeId =>
      obtain ⟨s'', hcall, hmap⟩ := map_eq_ok hstep
      obtain ⟨rfl, _⟩ := Prod.mk.injEq .. ▸ hmap
      exact stateOK_markDelivered ih hcall
    | approve sender tradeId =>
      obtain ⟨_, _, _, _, hrel⟩ := approveDelivery_ok_iff.mp hstep
      exact stateOK_release ih hrel
    | timeoutRelease sender ts tradeId =>
      obtain ⟨_, _, _, _, _, hrel⟩ := releaseAfterTimeout_ok_iff.mp hstep
      exact stateOK_release ih hrel
    | dispute sender tradeId raisedBy =>
      obtain ⟨s'', hcall, hmap⟩ := map_eq_ok hstep
      obtain ⟨rfl, _⟩ := Prod.mk.injEq .. ▸ hmap
      exact stateOK_openDispute ih hcall
    | resolve sender tradeId b c =>
      exact stateOK_resolveDispute ih hstep

/-- Splitting `d` by two basis-point shares that sum to 10000 loses at most
one unit to floor rounding. -/
lemma split_sum_close (d b c : Nat) (h : b + c = 10000) :
    d * b / 10000 + d * c / 10000 ≤ d ∧
      d - (d * b / 10000 + d * c / 10000) ≤ 1 := by
  have hbc : d * b + d * c = d * 10000 := by rw [← Nat.mul_add, h]
  have h1 := Nat.div_add_mod (d * b) 10000
  have h2 := Nat.div_add_mod (d * c) 10000
  have h3 : d * b % 10000 < 10000 := Nat.mod_lt _ (by norm_num)
  have h4 : d * c % 10000 < 10000 := Nat.mod_lt _ (by norm_num)
  omega

lemma set_oob {α : Type} (l : List α) (i : Nat) (a : α)
    (h : l.length ≤ i) : l.set i a = l := by
  induction l generalizing i with
  | nil => rfl
  | cons x xs ih =>
    cases i with
    | zero => simp at h
    | succ n => simp only [List.set]; rw [ih n (by simpa using h)]

/-- Reading back after a write: either the slot is untouched, or it now
holds the written record and previously aliased the written slot. -/
lemma getTrade_setTrade_cases (s : EscrowState) (i j : Nat) (t : Trade) :
    getTrade (setTrade s i t) j = getTrade s j ∨
      (getTrade (setTrade s i t) j = t ∧ getTrade s j = getTrade s i) := by
  by_cases hij : i - 1 = j - 1
  · by_cases hlen : j - 1 < s.trades.length
    · right
      constructor
      · unfold getTrade setTrade
        simp only
        rw [← hij]
        exact getD_set_self _ _ _ _ (by omega)
      · unfold getTrade
        rw [hij]
    · left
      unfold getTrade setTrade
      simp only
      rw [set_oob _ _ _ (by omega)]
  · left
    unfold getTrade setTrade
    simp only
    exact getD_set_ne _ _ _ _ _ hij

/-- A trade slot holding a non-`Created` status is in range (an absent
mapping key reads as the all-zero record, whose status is `Created`). -/
lemma lt_length_of_status_ne_created {s : EscrowState} {tradeId : Nat}
    (h : (getTrade s tradeId).status ≠ TradeStatus.Created) :
    tradeId - 1 < s.trades.length := by
  by_contra hlen
  rw [getTrade, getD_len_le _ _ _ (by omega)] at h
  exact h rfl

lemma reachable_escrowInit : Reachable escrowInit :=
  Reachable.init 9 8 (by decide) (by decide)

lemma reachable_fundedSample : Reachable fundedSample :=
  Reachable.step escrowInit allOk (Action.fund 1 1025 2 1000)
    fundedSample [] reachable_escrowInit (by rfl)

lemma reachable_deliveredSample : Reachable deliveredSample :=
  Reachable.step fundedSample allOk (Action.deliver 9 100 1)
    deliveredSample [] reachable_fundedSample (by rfl)

lemma reachable_disputedSample : Reachable disputedSample :=
  Reachable.step deliveredSample allOk (Action.dispute 9 1 1)
    disputedSample [] reachable_deliveredSample (by rfl)

/-- C6: `createAndFundTrade(seller, amount)` with attached value `v` from
`sender` succeeds iff the seller is not the zero address, the seller
differs from the caller, the amount is positive, and `v` equals exactly
`amount + floor(amount * 250 / 10000)`.  On failure the call reverts (an
`Except.error`), so no trade is created and the ledger is unchanged; on
success it assigns the next sequential id `tradeCount + 1` (the count
starts at 0, so ids start at 1), appends a trade with status `Funded`
whose pending fee balances hold the buyer-side fee split, and returns the
new id. -/
theorem fund_validation (s : EscrowState) (sender seller : Address)
    (v amt : Nat) :
    ((∃ r, createAndFundTrade s sender v seller amt = Except.ok r) ↔
      seller ≠ 0 ∧ sender ≠ seller ∧ 0 < amt ∧
        v = amt + amt * FEE_BPS / 10000) ∧
    (∀ s' id, createAndFundTrade s sender v seller amt = Except.ok (s', id) →
      id = s.tradeCount + 1 ∧
      s'.tradeCount = s.tradeCount + 1 ∧
      s'.trades = s.trades ++ [newTrade s sender seller amt] ∧
      (newTrade s sender seller amt).status = TradeStatus.Funded ∧
      (newTrade s sender seller amt).pendingBotFee +
        (newTrade s sender seller amt).pendingfeeReceiverFee
          = amt * FEE_BPS / 10000) := by
  constructor
  · constructor
    · rintro ⟨r, hr⟩
      obtain ⟨a1, a2, a3, a4, _⟩ := createAndFundTrade_ok_iff.mp hr
      exact ⟨a1, a2, by omega, a4⟩
    · rintro ⟨a1, a2, a3, a4⟩
      exact ⟨_, createAndFundTrade_ok_iff.mpr ⟨a1, a2, by omega, a4, rfl⟩⟩
  · intro s' id hr
    obtain ⟨_, _, _, _, heq⟩ := createAndFundTrade_ok_iff.mp hr
    obtain ⟨hstate, hid⟩ := Prod.mk.injEq .. ▸ heq
    subst hstate
    have hb := botShare_le (amt * FEE_BPS / 10000)
    refine ⟨hid, rfl, rfl, rfl, ?_⟩
    simp only [newTrade]
    omega

/-- Witness for C6 at a concrete input: funding 1000 wei with 1025
attached from buyer 1 to seller 2 on a fresh contract succeeds and
appends exactly the expected `Funded` trade. -/
theorem fund_validation_witness :
    fundedSample.trades = escrowInit.trades ++ [newTrade escrowInit 1 2 1000] :=
  ((fund_validation escrowInit 1 2 1025 1000).2 fundedSample 1 (by rfl)).2.2.1

/-- C7: with `amount = 1000`, funding requires exactly 1025 attached
(every other value fails `IncorrectFunding`); settling the trade via
`approveDelivery` pays the seller exactly 975, the bot exactly 10 and the
feeReceiver exactly 40 — the combined 50-wei fee pool (25 buyer-side +
25 seller-side, each `amount * FEE_BPS / 10000` with floor division)
split 10/40 between operator and platform. -/
theorem fee_determinism :
    1000 + 1000 * FEE_BPS / 10000 = 1025 ∧
    (∀ v, v ≠ 1025 →
      createAndFundTrade escrowInit 1 v 2 1000 =
        Except.error EscrowError.IncorrectFunding) ∧
    (runTrace escrowInit allOk
      [Action.fund 1 1025 2 1000, Action.deliver 9 100 1,
       Action.approve 9 1]).2 =
      [{ toAddr := 2, value := 975 }, { toAddr := 9, value := 10 },
       { toAddr := 8, value := 40 }] ∧
    (getTrade (runTrace escrowInit allOk
      [Action.fund 1 1025 2 1000, Action.deliver 9 100 1,
       Action.approve 9 1]).1 1).status = TradeStatus.Completed ∧
    1000 * FEE_BPS / 10000 + 1000 * FEE_BPS / 10000 = 50 := by
  refine ⟨by decide, ?_, by rfl, by rfl, by decide⟩
  intro v hv
  simp only [createAndFundTrade, FEE_BPS]
  norm_num
  exact fun h => absurd h hv

/-- Witness for C7: attaching 1024 wei for a 1000-wei trade is rejected
as `IncorrectFunding`. -/
theorem fee_determinism_witness :
    createAndFundTrade escrowInit 1 1024 2 1000 =
      Except.error EscrowError.IncorrectFunding :=
  fee_determinism.2.1 1024 (by decide)

/-- C8: for a disputed trade with `amount = 1000`,
`resolveDispute(id, 6000, 4000)` computes `totalFee = 25` and
`distributable = 975`, pays the buyer 585 and the seller 390, and splits
the dispute-time fee 25 as 5 to the bot and 20 to the feeReceiver,
accrued onto the pending balances from funding (so the actual fee legs
carry 10 and 40).  With `buyerShareBps = 0` the zero-value buyer leg is
skipped rather than attempted — the call succeeds even under an oracle
that fails every send to the buyer — while the fee legs are still sent. -/
theorem dispute_split :
    1000 * FEE_BPS / 10000 = 25 ∧
    1000 - 1000 * FEE_BPS / 10000 = 975 ∧
    975 * 6000 / 10000 = 585 ∧
    975 * 4000 / 10000 = 390 ∧
    25 * BOT_SHARE_BPS / TOTAL_FEE_BPS = 5 ∧
    25 - 25 * BOT_SHARE_BPS / TOTAL_FEE_BPS = 20 ∧
    resolveDispute disputedSample allOk 9 1 6000 4000 =
      Except.ok (settledSample,
        [{ toAddr := 1, value := 585 }, { toAddr := 2, value := 390 },
         { toAddr := 9, value := 10 }, { toAddr := 8, value := 40 }]) ∧
    resolveDispute disputedSample failTo1 9 1 0 10000 =
      Except.ok (settledSample,
        [{ toAddr := 2, value := 975 }, { toAddr := 9, value := 10 },
         { toAddr := 8, value := 40 }]) :=
  ⟨by decide, by decide, by decide, by decide, by decide, by decide,
   by rfl, by rfl⟩

/-- C9: with the trade `Delivered`, `releaseAfterTimeout` fails
`TimeoutNotReached` whenever called strictly before
`deliveryTimestamp + releaseTimeout` (a fixed 86400 seconds), and at or
after that instant the timeout check passes and the call proceeds to the
internal settlement `release`. -/
theorem timeout_gating (s : EscrowState) (ok : SendOracle) (sender : Address)
    (ts tradeId : Nat) (hsender : sender = s.bot) (h1 : 1 ≤ tradeId)
    (h2 : tradeId ≤ s.tradeCount)
    (hst : (getTrade s tradeId).status = TradeStatus.Delivered) :
    releaseTimeout = 86400 ∧
    (ts < (getTrade s tradeId).deliveryTimestamp + releaseTimeout →
      releaseAfterTimeout s ok sender ts tradeId =
        Except.error EscrowError.TimeoutNotReached) ∧
    ((getTrade s tradeId).deliveryTimestamp + releaseTimeout ≤ ts →
      releaseAfterTimeout s ok sender ts tradeId = release s ok tradeId) := by
  refine ⟨rfl, ?_, ?_⟩
  · intro hts
    simp only [releaseAfterTimeout]
    rw [if_neg (by simp [hsender]), if_neg (by push_neg; exact ⟨h1, h2⟩),
      if_neg (by simp [hst]), if_pos hts]
  · intro hts
    simp only [releaseAfterTimeout]
    rw [if_neg (by simp [hsender]), if_neg (by push_neg; exact ⟨h1, h2⟩),
      if_neg (by simp [hst]), if_neg (by omega)]

/-- Witness for C9 on the sample trade delivered at time 100: at time
86499 the call fails `TimeoutNotReached`; at 86500 it reaches the
settlement logic. -/
theorem timeout_gating_witness :
    releaseAfterTimeout deliveredSample allOk 9 86499 1 =
      Except.error EscrowError.TimeoutNotReached ∧
    releaseAfterTimeout deliveredSample allOk 9 86500 1 =
      release deliveredSample allOk 1 :=
  ⟨(timeout_gating deliveredSample allOk 9 86499 1 rfl (by decide) (by decide)
      (by rfl)).2.1 (by decide),
   (timeout_gating deliveredSample allOk 9 86500 1 rfl (by decide) (by decide)
      (by rfl)).2.2 (by decide)⟩

/-- C10: although the status enum declares `Created` and `Cancelled`, no
operation ever stores either: every trade id in `1..tradeCount` of a
reachable state has status `Funded`, `Delivered`, `Disputed` or
`Completed` (trades enter the ledger directly at `Funded`). -/
theorem vestigial_statuses_unreachable (s : EscrowState) (hs : Reachable s)
    (tradeId : Nat) (h1 : 1 ≤ tradeId) (h2 : tradeId ≤ s.tradeCount) :
    (getTrade s tradeId).status ≠ TradeStatus.Created ∧
    (getTrade s tradeId).status ≠ TradeStatus.Cancelled ∧
    ((getTrade s tradeId).status = TradeStatus.Funded ∨
      (getTrade s tradeId).status = TradeStatus.Delivered ∨
      (getTrade s tradeId).status = TradeStatus.Disputed ∨
      (getTrade s tradeId).status = TradeStatus.Completed) := by
  obtain ⟨_, hall⟩ := reachable_StateOK hs
  obtain ⟨hdisj, _, _⟩ := hall tradeId h1 h2
  refine ⟨?_, ?_, hdisj⟩ <;>
    rcases hdisj with h | h | h | h <;> simp [h]

/-- Witness for C10 on the reachable sample state with one delivered
trade. -/
theorem vestigial_statuses_unreachable_witness :
    (getTrade deliveredSample 1).status ≠ TradeStatus.Created ∧
    (getTrade deliveredSample 1).status ≠ TradeStatus.Cancelled :=
  ⟨(vestigial_statuses_unreachable deliveredSample reachable_deliveredSample
      1 (by decide) (by decide)).1,
   (vestigial_statuses_unreachable deliveredSample reachable_deliveredSample
      1 (by decide) (by decide)).2.1⟩

/-- Successful settlement steps write back exactly the completed record:
valid id, and the new state is `setTrade` of `completedOf` the old trade,
whose old status was live (neither `Created` nor `Completed`). -/
lemma settlement_shape {s s' : EscrowState} {ok : SendOracle} {a : Action}
    {tid : Nat} {tr : List Transfer} (hset : isSettlement a = some tid)
    (hstep : step s ok a = Except.ok (s', tr)) :
    0 < tid ∧ tid ≤ s.tradeCount ∧
    s' = setTrade s tid (completedOf (getTrade s tid)) ∧
    (getTrade s tid).status ≠ TradeStatus.Created ∧
    (getTrade s tid).status ≠ TradeStatus.Completed := by
  cases a with
  | fund sender v seller amt => simp [isSettlement] at hset
  | deliver sender ts tid' => simp [isSettlement] at hset
  | dispute sender tid' raisedBy => simp [isSettlement] at hset
  | approve sender tid' =>
    simp only [isSettlement, Option.some.injEq] at hset
    subst hset
    obtain ⟨_, h1, h2, hst, hrel⟩ := approveDelivery_ok_iff.mp hstep
    obtain ⟨_, _, _, _, _, _, hr⟩ := release_ok_iff.mp hrel
    obtain ⟨hs', _⟩ := Prod.mk.injEq .. ▸ hr
    exact ⟨h1, h2, hs', by simp [hst], by simp [hst]⟩
  | timeoutRelease sender ts tid' =>
    simp only [isSettlement, Option.some.injEq] at hset
    subst hset
    obtain ⟨_, h1, h2, hst, _, hrel⟩ := releaseAfterTimeout_ok_iff.mp hstep
    obtain ⟨_, _, _, _, _, _, hr⟩ := release_ok_iff.mp hrel
    obtain ⟨hs', _⟩ := Prod.mk.injEq .. ▸ hr
    exact ⟨h1, h2, hs', by simp [hst], by simp [hst]⟩
  | resolve sender tid' b c =>
    simp only [isSettlement, Option.some.injEq] at hset
    subst hset
    obtain ⟨_, h1, h2, hst, _, _, _, _, _, hr⟩ := resolveDispute_ok_iff.mp hstep
    obtain ⟨hs', _⟩ := Prod.mk.injEq .. ▸ hr
    exact ⟨h1, h2, hs', by simp [hst], by simp [hst]⟩

/-- After the settlement write-back, slot `tid` holds the completed
record. -/
lemma settlement_completed_status {s s' : EscrowState} {tid : Nat}
    (hne : (getTrade s tid).status ≠ TradeStatus.Created) (h0 : 0 < tid)
    (hs' : s' = setTrade s tid (completedOf (getTrade s tid))) :
    getTrade s' tid = completedOf (getTrade s tid) := by
  subst hs'
  have hlen := lt_length_of_status_ne_created hne
  exact getTrade_setTrade_self s tid _ (by omega) (by omega)

/-- A settlement call on a trade whose status is already `Completed`
reverts with `InvalidState` (the status guard of each settlement entry
point fires before anything else after the id check). -/
lemma settlement_wrong_state {s : EscrowState} {ok : SendOracle} {a : Action}
    {tid : Nat} (hset : isSettlement a = some tid)
    (hsender : actionSender a = s.bot) (h0 : 0 < tid)
    (hle : tid ≤ s.tradeCount)
    (hst : (getTrade s tid).status = TradeStatus.Completed) :
    step s ok a = Except.error EscrowError.InvalidState := by
  cases a with
  | fund sender v seller amt => simp [isSettlement] at hset
  | deliver sender ts tid' => simp [isSettlement] at hset
  | dispute sender tid' raisedBy => simp [isSettlement] at hset
  | approve sender tid' =>
    simp only [isSettlement, Option.some.injEq] at hset
    subst hset
    simp only [actionSender] at hsender
    show approveDelivery s ok sender tid' = _
    simp only [approveDelivery]
    rw [if_neg (by simp [hsender]), if_neg (by push_neg; exact ⟨h0, hle⟩),
      if_pos (by simp [hst])]
  | timeoutRelease sender ts tid' =>
    simp only [isSettlement, Option.some.injEq] at hset
    subst hset
    simp only [actionSender] at hsender
    show releaseAfterTimeout s ok sender ts tid' = _
    simp only [releaseAfterTimeout]
    rw [if_neg (by simp [hsender]), if_neg (by push_neg; exact ⟨h0, hle⟩),
      if_pos (by simp [hst])]
  | resolve sender tid' b c =>
    simp only [isSettlement, Option.some.injEq] at hset
    subst hset
    simp only [actionSender] at hsender
    show resolveDispute s ok sender tid' b c = _
    simp only [resolveDispute]
    rw [if_neg (by simp [hsender]), if_neg (by push_neg; exact ⟨h0, hle⟩),
      if_pos (by simp [hst])]

/-- C5: at every reachable instant, the two pending fee balances of a
live (not yet completed) trade sum exactly to the fees accrued but not
yet paid out — the buyer-side funding fee `amount * FEE_BPS / 10000`
(the settlement-time fee is accrued and paid within one atomic
settlement) — and a completed trade holds zero in both.  Moreover every
successful settlement zeroes both balances together: in the
post-settlement state both are 0.  A failed settlement is an
`Except.error`, which leaves the pre-state (and so both balances)
untouched, so the balances are never zeroed one without the other. -/
theorem pending_fee_invariant (s : EscrowState) (hs : Reachable s) :
    (∀ tradeId, 1 ≤ tradeId → tradeId ≤ s.tradeCount →
      ((getTrade s tradeId).status ≠ TradeStatus.Completed →
        (getTrade s tradeId).pendingBotFee +
          (getTrade s tradeId).pendingfeeReceiverFee
            = feeOn (getTrade s tradeId).amount) ∧
      ((getTrade s tradeId).status = TradeStatus.Completed →
        (getTrade s tradeId).pendingBotFee = 0 ∧
        (getTrade s tradeId).pendingfeeReceiverFee = 0)) ∧
    (∀ ok a tradeId s' tr, isSettlement a = some tradeId →
      step s ok a = Except.ok (s', tr) →
      (getTrade s' tradeId).pendingBotFee = 0 ∧
      (getTrade s' tradeId).pendingfeeReceiverFee = 0) := by
  constructor
  · intro tid h1 h2
    obtain ⟨_, hall⟩ := reachable_StateOK hs
    obtain ⟨_, hcomp, hlive⟩ := hall tid h1 h2
    exact ⟨hlive, hcomp⟩
  · intro ok a tid s' tr hset hstep
    obtain ⟨h1, h2, hs', hne, _⟩ := settlement_shape hset hstep
    rw [settlement_completed_status hne h1 hs']
    simp [completedOf]

/-- Witness for C5: in the reachable one-trade state with a delivered
1000-wei trade, the pending balances sum to the buyer-side fee 25; after
settlement both are zero. -/
theorem pending_fee_invariant_witness :
    (getTrade deliveredSample 1).pendingBotFee +
      (getTrade deliveredSample 1).pendingfeeReceiverFee
        = feeOn (getTrade deliveredSample 1).amount ∧
    (getTrade settledSample 1).pendingBotFee = 0 :=
  ⟨((pending_fee_invariant deliveredSample reachable_deliveredSample).1
      1 (by decide) (by decide)).1 (by decide),
   ((pending_fee_invariant deliveredSample reachable_deliveredSample).2
      allOk (Action.approve 9 1) 1 settledSample
      [{ toAddr := 2, value := 975 }, { toAddr := 9, value := 10 },
       { toAddr := 8, value := 40 }] rfl (by rfl)).1⟩

/-- C3: once a settlement call (`approveDelivery`, `releaseAfterTimeout`
or `resolveDispute`) has succeeded on a trade id, any second settlement
call on the same id reverts with `InvalidState` (the status guard of the
entry point — the internal `AlreadyCompleted` guard of `_release` is
shadowed by it), and under EVM revert semantics (`run`) the second call
moves zero funds and leaves every trade field unchanged. -/
theorem no_double_settlement (s : EscrowState) (ok ok2 : SendOracle)
    (a a2 : Action) (tradeId : Nat)
    (h1 : isSettlement a = some tradeId)
    (h2 : isSettlement a2 = some tradeId) :
    ∀ s' tr, step s ok a = Except.ok (s', tr) →
      actionSender a2 = s'.bot →
      step s' ok2 a2 = Except.error EscrowError.InvalidState ∧
      run s' ok2 a2 = (s', []) := by
  intro s' tr hstep hsender
  obtain ⟨hpos, hle, hs', hne, _⟩ := settlement_shape h1 hstep
  have hcomp : (getTrade s' tradeId).status = TradeStatus.Completed := by
    rw [settlement_completed_status hne hpos hs']
    rfl
  have hbot : s'.bot = s.bot := by rw [hs']; rfl
  have hcount : s'.tradeCount = s.tradeCount := by rw [hs']; rfl
  have herr : step s' ok2 a2 = Except.error EscrowError.InvalidState :=
    settlement_wrong_state h2 hsender hpos (by omega) hcomp
  exact ⟨herr, by simp [run, herr]⟩

/-- Witness for C3: settling the delivered sample trade once succeeds;
the immediate second `approveDelivery` on id 1 reverts `InvalidState`
and changes nothing. -/
theorem no_double_settlement_witness :
    step settledSample allOk (Action.approve 9 1) =
      Except.error EscrowError.InvalidState ∧
    run settledSample allOk (Action.approve 9 1) = (settledSample, []) :=
  no_double_settlement deliveredSample allOk allOk (Action.approve 9 1)
    (Action.approve 9 1) 1 rfl rfl settledSample
    [{ toAddr := 2, value := 975 }, { toAddr := 9, value := 10 },
     { toAddr := 8, value := 40 }] (by rfl) rfl

/-- The three legs of a successful `_release` sum to
`amount + feeOn amount`, provided the pending balances hold exactly the
buyer-side fee (the reachable-state invariant). -/
lemma release_conservation {s s' : EscrowState} {ok : SendOracle} {tid : Nat}
    {tr : List Transfer}
    (hfee : (getTrade s tid).pendingBotFee +
      (getTrade s tid).pendingfeeReceiverFee = feeOn (getTrade s tid).amount)
    (hrel : release s ok tid = Except.ok (s', tr)) :
    transferSum tr = (getTrade s tid).amount + feeOn (getTrade s tid).amount := by
  obtain ⟨_, _, _, _, _, _, hr⟩ := release_ok_iff.mp hrel
  obtain ⟨_, htr⟩ := Prod.mk.injEq .. ▸ hr
  subst htr
  have ha := feeOn_le (getTrade s tid).amount
  have hb := botShare_le ((getTrade s tid).amount * FEE_BPS / 10000)
  simp only [feeOn] at hfee ha ⊢
  simp only [transferSum, List.foldr, sellerPayoutOf, relBotAmount,
    relReceiverAmount]
  omega

/-- C1 (amended): conservation of funds holds exactly on the
`approveDelivery` and `releaseAfterTimeout` settlement paths — the legs
of a successful settlement sum to exactly the value attached at funding,
`amount + feeOn amount` (funding enforces `msg.value` equal to that sum,
and `markDelivered`/`openDispute` move no funds).  On the
`resolveDispute` path the legs sum to the funded value minus a rounding
remainder of at most 1 wei, which stays with the engine; the remainder
can be nonzero (see the counterexample), so exact conservation fails
there. -/
theorem settlement_conservation (s : EscrowState) (hs : Reachable s)
    (ok : SendOracle) (sender : Address) (tradeId : Nat) :
    (∀ s' tr, approveDelivery s ok sender tradeId = Except.ok (s', tr) →
      transferSum tr =
        (getTrade s tradeId).amount + feeOn (getTrade s tradeId).amount) ∧
    (∀ ts s' tr,
      releaseAfterTimeout s ok sender ts tradeId = Except.ok (s', tr) →
      transferSum tr =
        (getTrade s tradeId).amount + feeOn (getTrade s tradeId).amount) ∧
    (∀ b c s' tr,
      resolveDispute s ok sender tradeId b c = Except.ok (s', tr) →
      transferSum tr ≤
        (getTrade s tradeId).amount + feeOn (getTrade s tradeId).amount ∧
      (getTrade s tradeId).amount + feeOn (getTrade s tradeId).amount
        - transferSum tr ≤ 1) := by
  have hinv : (getTrade s tradeId).status ≠ TradeStatus.Completed →
      1 ≤ tradeId → tradeId ≤ s.tradeCount →
      (getTrade s tradeId).pendingBotFee +
        (getTrade s tradeId).pendingfeeReceiverFee
          = feeOn (getTrade s tradeId).amount := by
    intro hne hg1 hg2
    obtain ⟨_, hall⟩ := reachable_StateOK hs
    exact (hall tradeId hg1 hg2).2.2 hne
  refine ⟨?_, ?_, ?_⟩
  · intro s' tr happ
    obtain ⟨_, h1, h2, hst, hrel⟩ := approveDelivery_ok_iff.mp happ
    exact release_conservation (hinv (by simp [hst]) (by omega) h2) hrel
  · intro ts s' tr happ
    obtain ⟨_, h1, h2, hst, _, hrel⟩ := releaseAfterTimeout_ok_iff.mp happ
    exact release_conservation (hinv (by simp [hst]) (by omega) h2) hrel
  · intro b c s' tr happ
    obtain ⟨_, h1, h2, hst, hbc, _, _, _, _, hr⟩ := resolveDispute_ok_iff.mp happ
    obtain ⟨_, htr⟩ := Prod.mk.injEq .. ▸ hr
    subst htr
    have hfee := hinv (by simp [hst]) (by omega) h2
    have ha := feeOn_le (getTrade s tradeId).amount
    have hb := botShare_le ((getTrade s tradeId).amount * FEE_BPS / 10000)
    have hsplit := split_sum_close (distributableOf (getTrade s tradeId)) b c hbc
    by_cases hbp : 0 < shareOf (getTrade s tradeId) b <;>
      by_cases hsp : 0 < shareOf (getTrade s tradeId) c <;>
      simp only [feeOn] at hfee ha <;>
      simp [hbp, hsp, transferSum, List.foldr] <;>
      simp only [transferSum, List.foldr, shareOf, distributableOf,
        relBotAmount, relReceiverAmount, feeOn, not_lt,
        Nat.le_zero] at hbp hsp hsplit ⊢ <;>
      omega

/-- Witness for C1 (amended): settling the delivered 1000-wei sample
trade pays out 975 + 10 + 40 = 1025 = amount + buyer-side fee, exactly
the value attached at funding. -/
theorem settlement_conservation_witness :
    transferSum
      [{ toAddr := 2, value := 975 }, { toAddr := 9, value := 10 },
       { toAddr := 8, value := 40 }] =
      (getTrade deliveredSample 1).amount +
        feeOn (getTrade deliveredSample 1).amount :=
  (settlement_conservation deliveredSample reachable_deliveredSample
    allOk 9 1).1 settledSample
    [{ toAddr := 2, value := 975 }, { toAddr := 9, value := 10 },
     { toAddr := 8, value := 40 }] (by rfl)

/-- Counterexample to C1 as stated: a trade funded with
1026 wei (amount 1001 plus buyer fee 25) and settled through
`openDispute`/`resolveDispute(6000, 4000)` completes while paying out
only 585 + 390 + 10 + 40 = 1025 wei over its whole lifecycle — 1 wei of
rounding dust is retained by the engine, so the funded value does not
equal the sum of all payouts. -/
theorem conservation_counterexample :
    1001 + 1001 * FEE_BPS / 10000 = 1026 ∧
    transferSum (runTrace escrowInit allOk
      [Action.fund 1 1026 2 1001, Action.deliver 9 100 1,
       Action.dispute 9 1 1, Action.resolve 9 1 6000 4000]).2 = 1025 ∧
    (getTrade (runTrace escrowInit allOk
      [Action.fund 1 1026 2 1001, Action.deliver 9 100 1,
       Action.dispute 9 1 1, Action.resolve 9 1 6000 4000]).1 1).status
      = TradeStatus.Completed ∧
    (1025 : Nat) ≠ 1026 :=
  ⟨by decide, by rfl, by rfl, by decide⟩

/-- Once the front guards of `resolveDispute` pass, the call either pays
out (`Except.ok`) or aborts at a transfer leg with `TransferFailed`. -/
lemma resolveDispute_cases {s : EscrowState} (ok : SendOracle)
    {sender : Address} {tid b c : Nat} (hsender : sender = s.bot)
    (h1 : 1 ≤ tid) (h2 : tid ≤ s.tradeCount)
    (hst : (getTrade s tid).status = TradeStatus.Disputed)
    (hbc : b + c = 10000) :
    resolveDispute s ok sender tid b c =
      Except.error EscrowError.TransferFailed ∨
    ∃ r, resolveDispute s ok sender tid b c = Except.ok r := by
  simp only [resolveDispute]
  rw [if_neg (by simp [hsender]), if_neg (by push_neg; exact ⟨h1, h2⟩),
    if_neg (by simp [hst]), if_neg (by simp [hbc])]
  split_ifs <;> simp

/-- C4: settlement is all-or-nothing.  If any transfer leg of `_release`
(reached via `approveDelivery`) or of `resolveDispute` fails, the whole
call reverts with `TransferFailed`; under EVM revert semantics (`run`)
the pre-call state is kept, so the trade stays `Delivered`
(resp. `Disputed`) with its pending fee balances intact, and a partially
paid `Completed` trade is never observable.  For `resolveDispute` a
zero-value buyer or seller leg is skipped, so only a failing leg that is
actually attempted aborts the call. -/
theorem settlement_all_or_nothing (s : EscrowState) (ok : SendOracle)
    (sender : Address) (tradeId b c : Nat) :
    (sender = s.bot → 1 ≤ tradeId → tradeId ≤ s.tradeCount →
      (getTrade s tradeId).status = TradeStatus.Delivered →
      (ok (getTrade s tradeId).seller
          (sellerPayoutOf (getTrade s tradeId)) = false ∨
        ok s.bot (relBotAmount (getTrade s tradeId)) = false ∨
        ok s.feeReceiver (relReceiverAmount (getTrade s tradeId)) = false) →
      approveDelivery s ok sender tradeId =
        Except.error EscrowError.TransferFailed ∧
      run s ok (Action.approve sender tradeId) = (s, [])) ∧
    (sender = s.bot → 1 ≤ tradeId → tradeId ≤ s.tradeCount →
      (getTrade s tradeId).status = TradeStatus.Disputed → b + c = 10000 →
      ((0 < shareOf (getTrade s tradeId) b ∧
          ok (getTrade s tradeId).buyer (shareOf (getTrade s tradeId) b)
            = false) ∨
        (0 < shareOf (getTrade s tradeId) c ∧
          ok (getTrade s tradeId).seller (shareOf (getTrade s tradeId) c)
            = false) ∨
        ok s.bot (relBotAmount (getTrade s tradeId)) = false ∨
        ok s.feeReceiver (relReceiverAmount (getTrade s tradeId)) = false) →
      resolveDispute s ok sender tradeId b c =
        Except.error EscrowError.TransferFailed ∧
      run s ok (Action.resolve sender tradeId b c) = (s, [])) := by
  constructor
  · intro hsender hg1 hg2 hst hfail
    simp only [sellerPayoutOf, relBotAmount, relReceiverAmount] at hfail
    have herr : approveDelivery s ok sender tradeId =
        Except.error EscrowError.TransferFailed := by
      simp only [approveDelivery, release]
      rw [if_neg (by simp [hsender]), if_neg (by push_neg; exact ⟨hg1, hg2⟩),
        if_neg (by simp [hst]), if_neg (by push_neg; exact ⟨hg1, hg2⟩),
        if_neg (by simp [hst])]
      split_ifs with g1 g2 g3 <;> simp_all
    refine ⟨herr, ?_⟩
    have hstep : step s ok (Action.approve sender tradeId) =
        Except.error EscrowError.TransferFailed := herr
    simp [run, hstep]
  · intro hsender hg1 hg2 hst hbc hfail
    have herr : resolveDispute s ok sender tradeId b c =
        Except.error EscrowError.TransferFailed := by
      rcases resolveDispute_cases ok hsender hg1 hg2 hst hbc
        with herr | ⟨r, hr⟩
      · exact herr
      · exfalso
        obtain ⟨_, _, _, _, _, hb1, hb2, hb3, hb4, _⟩ :=
          resolveDispute_ok_iff.mp hr
        rcases hfail with ⟨hp, hf⟩ | ⟨hp, hf⟩ | hf | hf
        · rw [hb1 hp] at hf
          exact absurd hf (by decide)
        · rw [hb2 hp] at hf
          exact absurd hf (by decide)
        · rw [hb3] at hf
          exact absurd hf (by decide)
        · rw [hb4] at hf
          exact absurd hf (by decide)
    refine ⟨herr, ?_⟩
    have hstep : step s ok (Action.resolve sender tradeId b c) =
        Except.error EscrowError.TransferFailed := herr
    simp [run, hstep]

/-- Witness for C4: on the delivered sample trade, an oracle that fails
every send to the seller (address 2) makes `approveDelivery` revert
`TransferFailed` and leave the state untouched. -/
theorem settlement_all_or_nothing_witness :
    approveDelivery deliveredSample failTo2 9 1 =
      Except.error EscrowError.TransferFailed ∧
    run deliveredSample failTo2 (Action.approve 9 1) =
      (deliveredSample, []) :=
  (settlement_all_or_nothing deliveredSample failTo2 9 1 0 0).1 rfl
    (by decide) (by decide) (by rfl) (Or.inl (by decide))

/-- Writing a forward-edge successor into a slot moves every slot either
not at all or along a forward edge. -/
lemma setTrade_monotone {s : EscrowState} {tid0 : Nat} {t' : Trade}
    (hedge : ForwardEdge (getTrade s tid0).status t'.status) (tid : Nat) :
    getTrade (setTrade s tid0 t') tid = getTrade s tid ∨
      ForwardEdge (getTrade s tid).status
        (getTrade (setTrade s tid0 t') tid).status := by
  rcases getTrade_setTrade_cases s tid0 tid t' with h | ⟨ha, hb⟩
  · exact Or.inl h
  · right
    rw [ha, hb]
    exact hedge

/-- Writing into a slot whose old status is not `Completed` leaves every
completed trade untouched. -/
lemma setTrade_freezes_completed {s : EscrowState} {tid0 : Nat} {t' : Trade}
    (hne : (getTrade s tid0).status ≠ TradeStatus.Completed) (tid : Nat)
    (hc : (getTrade s tid).status = TradeStatus.Completed) :
    getTrade (setTrade s tid0 t') tid = getTrade s tid := by
  rcases getTrade_setTrade_cases s tid0 tid t' with h | ⟨ha, hb⟩
  · exact h
  · exact absurd (hb ▸ hc) hne

lemma getTrade_append_lt {s : EscrowState} {nt : Trade} {c tid : Nat}
    (h : tid - 1 < s.trades.length) :
    getTrade { s with tradeCount := c, trades := s.trades ++ [nt] } tid
      = getTrade s tid := by
  unfold getTrade
  simp only
  exact getD_append_lt _ _ _ _ h

/-- C2: the trade status machine is monotonic.  (a) Any successful call
moves every existing trade's status either not at all or along one of
the forward edges `Funded → Delivered`, `Delivered → Completed`,
`Delivered → Disputed`, `Disputed → Completed`.  (b) Any lifecycle call
(`markDelivered`, `approveDelivery`, `releaseAfterTimeout`,
`openDispute`, `resolveDispute`) addressed by the bot to an existing
trade whose status is not that call's prescribed predecessor reverts
with `InvalidState` — leaving the trade unchanged, as a revert keeps
the pre-state.  (c) Once a trade is `Completed` no successful call
changes any of its fields. -/
theorem status_machine_monotonic (s : EscrowState) (hs : Reachable s)
    (ok : SendOracle) (a : Action) :
    (∀ s' tr, step s ok a = Except.ok (s', tr) →
      ∀ tradeId, 1 ≤ tradeId → tradeId ≤ s.tradeCount →
        getTrade s' tradeId = getTrade s tradeId ∨
          ForwardEdge (getTrade s tradeId).status
            (getTrade s' tradeId).status) ∧
    (∀ pred, statusPrereq a = some pred → actionSender a = s.bot →
      ∀ tradeId, actionTradeId a = some tradeId →
        1 ≤ tradeId → tradeId ≤ s.tradeCount →
        (getTrade s tradeId).status ≠ pred →
        step s ok a = Except.error EscrowError.InvalidState) ∧
    (∀ s' tr, step s ok a = Except.ok (s', tr) →
      ∀ tradeId, (getTrade s tradeId).status = TradeStatus.Completed →
        getTrade s' tradeId = getTrade s tradeId) := by
  obtain ⟨hlen, _⟩ := reachable_StateOK hs
  refine ⟨?_, ?_, ?_⟩
  · intro s' tr hstep tid htid1 htid2
    cases a with
    | fund sender v seller amt =>
      obtain ⟨⟨s'', id⟩, hcall, hmap⟩ := map_eq_ok hstep
      obtain ⟨rfl, _⟩ := Prod.mk.injEq .. ▸ hmap
      obtain ⟨_, _, _, _, hr⟩ := createAndFundTrade_ok_iff.mp hcall
      obtain ⟨hss, _⟩ := Prod.mk.injEq .. ▸ hr
      subst hss
      exact Or.inl (getTrade_append_lt (by omega))
    | deliver sender ts tid0 =>
      obtain ⟨s'', hcall, hmap⟩ := map_eq_ok hstep
      obtain ⟨rfl, _⟩ := Prod.mk.injEq .. ▸ hmap
      obtain ⟨_, h1, h2, hst, hss⟩ := markDelivered_ok_iff.mp hcall
      subst hss
      exact setTrade_monotone (by rw [hst]; exact trivial) tid
    | approve sender tid0 =>
      obtain ⟨_, h1, h2, hst, hrel⟩ := approveDelivery_ok_iff.mp hstep
      obtain ⟨_, _, _, _, _, _, hr⟩ := release_ok_iff.mp hrel
      obtain ⟨hss, _⟩ := Prod.mk.injEq .. ▸ hr
      subst hss
      exact setTrade_monotone (by rw [hst]; exact trivial) tid
    | timeoutRelease sender ts tid0 =>
      obtain ⟨_, h1, h2, hst, _, hrel⟩ := releaseAfterTimeout_ok_iff.mp hstep
      obtain ⟨_, _, _, _, _, _, hr⟩ := release_ok_iff.mp hrel
      obtain ⟨hss, _⟩ := Prod.mk.injEq .. ▸ hr
      subst hss
      exact setTrade_monotone (by rw [hst]; exact trivial) tid
    | dispute sender tid0 raisedBy =>
      obtain ⟨s'', hcall, hmap⟩ := map_eq_ok hstep
      obtain ⟨rfl, _⟩ := Prod.mk.injEq .. ▸ hmap
      obtain ⟨_, h1, h2, hst, _, hss⟩ := openDispute_ok_iff.mp hcall
      subst hss
      exact setTrade_monotone (by rw [hst]; exact trivial) tid
    | resolve sender tid0 b c =>
      obtain ⟨_, h1, h2, hst, _, _, _, _, _, hr⟩ := resolveDispute_ok_iff.mp hstep
      obtain ⟨hss, _⟩ := Prod.mk.injEq .. ▸ hr
      subst hss
      exact setTrade_monotone (by rw [hst]; exact trivial) tid
  · intro pred hpred hsender tid htid htid1 htid2 hstat
    cases a with
    | fund sender v seller amt => simp [statusPrereq] at hpred
    | deliver sender ts tid0 =>
      simp only [statusPrereq, Option.some.injEq] at hpred
      simp only [actionTradeId, Option.some.injEq] at htid
      simp only [actionSender] at hsender
      subst hpred
      subst htid
      have hm : markDelivered s sender ts tid0 =
          Except.error EscrowError.InvalidState := by
        simp only [markDelivered]
        rw [if_neg (by simp [hsender]),
          if_neg (by push_neg; exact ⟨htid1, htid2⟩), if_pos (by exact hstat)]
      show (markDelivered s sender ts tid0).map _ = _
      rw [hm]
      rfl
    | approve sender tid0 =>
      simp only [statusPrereq, Option.some.injEq] at hpred
      simp only [actionTradeId, Option.some.injEq] at htid
      simp only [actionSender] at hsender
      subst hpred
      subst htid
      show approveDelivery s ok sender tid0 = _
      simp only [approveDelivery]
      rw [if_neg (by simp [hsender]),
        if_neg (by push_neg; exact ⟨htid1, htid2⟩), if_pos (by exact hstat)]
    | timeoutRelease sender ts tid0 =>
      simp only [statusPrereq, Option.some.injEq] at hpred
      simp only [actionTradeId, Option.some.injEq] at htid
      simp only [actionSender] at hsender
      subst hpred
      subst htid
      show releaseAfterTimeout s ok sender ts tid0 = _
      simp only [releaseAfterTimeout]
      rw [if_neg (by simp [hsender]),
        if_neg (by push_neg; exact ⟨htid1, htid2⟩), if_pos (by exact hstat)]
    | dispute sender tid0 raisedBy =>
      simp only [statusPrereq, Option.some.injEq] at hpred
      simp only [actionTradeId, Option.some.injEq] at htid
      simp only [actionSender] at hsender
      subst hpred
      subst htid
      have hm : openDispute s sender tid0 raisedBy =
          Except.error EscrowError.InvalidState := by
        simp only [openDispute]
        rw [if_neg (by simp [hsender]),
          if_neg (by push_neg; exact ⟨htid1, htid2⟩), if_pos (by exact hstat)]
      show (openDispute s sender tid0 raisedBy).map _ = _
      rw [hm]
      rfl
    | resolve sender tid0 b c =>
      simp only [statusPrereq, Option.some.injEq] at hpred
      simp only [actionTradeId, Option.some.injEq] at htid
      simp only [actionSender] at hsender
      subst hpred
      subst htid
      show resolveDispute s ok sender tid0 b c = _
      simp only [resolveDispute]
      rw [if_neg (by simp [hsender]),
        if_neg (by push_neg; exact ⟨htid1, htid2⟩), if_pos (by exact hstat)]
  · intro s' tr hstep tid hc
    cases a with
    | fund sender v seller amt =>
      obtain ⟨⟨s'', id⟩, hcall, hmap⟩ := map_eq_ok hstep
      obtain ⟨rfl, _⟩ := Prod.mk.injEq .. ▸ hmap
      obtain ⟨_, _, _, _, hr⟩ := createAndFundTrade_ok_iff.mp hcall
      obtain ⟨hss, _⟩ := Prod.mk.injEq .. ▸ hr
      subst hss
      by_cases hlt : tid - 1 < s.trades.length
      · exact getTrade_append_lt hlt
      · exfalso
        have hz : getTrade s tid = zeroTrade := by
          unfold getTrade
          exact getD_len_le _ _ _ (by omega)
        rw [hz] at hc
        exact absurd hc (by decide)
    | deliver sender ts tid0 =>
      obtain ⟨s'', hcall, hmap⟩ := map_eq_ok hstep
      obtain ⟨rfl, _⟩ := Prod.mk.injEq .. ▸ hmap
      obtain ⟨_, h1, h2, hst, hss⟩ := markDelivered_ok_iff.mp hcall
      subst hss
      exact setTrade_freezes_completed (by simp [hst]) tid hc
    | approve sender tid0 =>
      obtain ⟨_, h1, h2, hst, hrel⟩ := approveDelivery_ok_iff.mp hstep
      obtain ⟨_, _, _, _, _, _, hr⟩ := release_ok_iff.mp hrel
      obtain ⟨hss, _⟩ := Prod.mk.injEq .. ▸ hr
      subst hss
      exact setTrade_freezes_completed (by simp [hst]) tid hc
    | timeoutRelease sender ts tid0 =>
      obtain ⟨_, h1, h2, hst, _, hrel⟩ := releaseAfterTimeout_ok_iff.mp hstep
      obtain ⟨_, _, _, _, _, _, hr⟩ := release_ok_iff.mp hrel
      obtain ⟨hss, _⟩ := Prod.mk.injEq .. ▸ hr
      subst hss
      exact setTrade_freezes_completed (by simp [hst]) tid hc
    | dispute sender tid0 raisedBy =>
      obtain ⟨s'', hcall, hmap⟩ := map_eq_ok hstep
      obtain ⟨rfl, _⟩ := Prod.mk.injEq .. ▸ hmap
      obtain ⟨_, h1, h2, hst, _, hss⟩ := openDispute_ok_iff.mp hcall
      subst hss
      exact setTrade_freezes_completed (by simp [hst]) tid hc
    | resolve sender tid0 b c =>
      obtain ⟨_, h1, h2, hst, _, _, _, _, _, hr⟩ := resolveDispute_ok_iff.mp hstep
      obtain ⟨hss, _⟩ := Prod.mk.injEq .. ▸ hr
      subst hss
      exact setTrade_freezes_completed (by simp [hst]) tid hc

/-- Witness for C2: `markDelivered` on the already-delivered sample trade
(status `Delivered`, not the prescribed `Funded`) reverts `InvalidState`;
and settling it moves trade 1 along a forward edge. -/
theorem status_machine_monotonic_witness :
    step deliveredSample allOk (Action.deliver 9 200 1) =
      Except.error EscrowError.InvalidState ∧
    (getTrade settledSample 1 = getTrade deliveredSample 1 ∨
      ForwardEdge (getTrade deliveredSample 1).status
        (getTrade settledSample 1).status) :=
  ⟨(status_machine_monotonic deliveredSample reachable_deliveredSample allOk
      (Action.deliver 9 200 1)).2.1 TradeStatus.Funded rfl rfl 1 rfl
      (by decide) (by decide) (by decide),
   (status_machine_monotonic deliveredSample reachable_deliveredSample allOk
      (Action.approve 9 1)).1 settledSample
      [{ toAddr := 2, value := 975 }, { toAddr := 9, value := 10 },
       { toAddr := 8, value := 40 }] (by rfl) 1 (by decide) (by decide)⟩

end AmisEscrow
